import Mathlib

/-!
Shallow embedding of the go-standard-crud todo service
(packages `models`, `repository`, `service`).

Modelling conventions:
* Go `int` is embedded as `Int` (the id counter starts at 1 and only
  grows, so machine overflow is immaterial to the verified properties).
* Go `time.Time` is embedded as `Int`; the zero time is `0`
  (`time.Time.IsZero` becomes `= 0`), and every operation that calls
  `time.Now()` takes the current instant `now : Int` explicitly.
* Go `strings.TrimSpace` is embedded as `trimSpace` below, and Go `len`
  on a string as `String.length`; the difference (byte length vs. rune
  count) only shows on multi-byte input and is orthogonal to the
  properties here.
* Go errors are strings; `fmt.Errorf` with `%w` is string concatenation
  with the wrapped error's text.
* The JSON wire format is embedded at the level of JSON values
  (inductive `Json`): `json.Marshal` / `json.Unmarshal` become
  `marshalStorage` / `unmarshalStorage`, with Go's unmarshalling
  semantics (a missing field keeps the zero value, a type mismatch is an
  error).  The backing file holds either nothing (no file), an empty
  byte string, a JSON document, or unparsable garbage.
* `os.WriteFile` can fail; each operation that writes the file takes a
  flag `wOk : Bool` telling whether that write succeeds.
* Methods that mutate the receiver in place return the new state
  explicitly: a mutating repository call returns
  `RepoState × Except String α`, the state component being the
  in-memory state after the call (mutated even when an error is
  returned, exactly as the Go code leaves it).
-/

namespace GoTodo

/-- Embeds Go `unicode.IsSpace` on the characters that matter here
(ASCII whitespace plus the two Latin-1 space characters). -/
def goIsSpace (c : Char) : Bool :=
  c = ' ' || c = '\t' || c = '\n' || c = '\x0b' || c = '\x0c' || c = '\r' ||
  c = '\x85' || c = '\xa0'

/-- Embeds Go `strings.TrimSpace`: drop leading and trailing whitespace.
(Defined structurally over the character list so that it evaluates;
`String.trim` of the core library does not reduce in the kernel.) -/
def trimSpace (s : String) : String :=
  ⟨((s.data.dropWhile goIsSpace).reverse.dropWhile goIsSpace).reverse⟩

/-- Embeds `models.Todo` (src `models/todo.go`). -/
structure Todo where
  ID : Int
  Title : String
  Description : String
  Completed : Bool
  CreatedAt : Int
  UpdatedAt : Int
deriving DecidableEq, Repr

/-- Embeds `Todo.ValidateTitle`: empty-after-trim title, then length over 200. -/
def validateTitle (t : Todo) : Option String :=
  if trimSpace t.Title = "" then some "title is required"
  else if t.Title.length > 200 then some "title must be 200 characters or less"
  else none

/-- Embeds `Todo.ValidateDescription`: length over 1000. -/
def validateDescription (t : Todo) : Option String :=
  if t.Description.length > 1000 then some "description must be 1000 characters or less"
  else none

/-- Embeds `Todo.Validate`: title check first, then description check. -/
def validate (t : Todo) : Option String :=
  match validateTitle t with
  | some e => some e
  | none => validateDescription t

/-- Embeds `Todo.SetTimestamps`: `CreatedAt` is set to `now` only when it
is the zero time; `UpdatedAt` is always set to `now`. -/
def setTimestamps (t : Todo) (now : Int) : Todo :=
  { t with
    CreatedAt := if t.CreatedAt = 0 then now else t.CreatedAt
    UpdatedAt := now }

/-- Embeds `models.TodoStorage`. -/
structure TodoStorage where
  Todos : List Todo
  NextID : Int
deriving DecidableEq, Repr

/-- Embeds `models.NewTodoStorage`. -/
def newTodoStorage : TodoStorage := { Todos := [], NextID := 1 }

/-- Embeds `TodoStorage.AddTodo` (which calls `GenerateNextID` and
`SetTimestamps`): assigns `ID := NextID`, bumps the counter, stamps the
record, appends it, and returns the stored record. -/
def addTodo (ts : TodoStorage) (todo : Todo) (now : Int) : TodoStorage × Todo :=
  let t := setTimestamps { todo with ID := ts.NextID } now
  ({ Todos := ts.Todos ++ [t], NextID := ts.NextID + 1 }, t)

/-- Helper for `findTodoByID`: linear scan carrying the current index,
mirroring the `for i, todo := range` loop in `TodoStorage.FindTodoByID`. -/
def findFrom (l : List Todo) (id : Int) (i : Nat) : Option (Todo × Nat) :=
  match l with
  | [] => none
  | t :: ts => if t.ID = id then some (t, i) else findFrom ts id (i + 1)

/-- Embeds `TodoStorage.FindTodoByID`: first record with the given id,
together with its index ( `none` embeds the "todo not found" error). -/
def findTodoByID (ts : TodoStorage) (id : Int) : Option (Todo × Nat) :=
  findFrom ts.Todos id 0

/-- Embeds `TodoStorage.UpdateTodo`: find the record, force `ID` and
`CreatedAt` of the incoming value to the stored record's, set `UpdatedAt`
to now, and overwrite in place. -/
def updateTodo (ts : TodoStorage) (id : Int) (updated : Todo) (now : Int) :
    Except String (TodoStorage × Todo) :=
  match findTodoByID ts id with
  | none => .error "todo not found"
  | some (t, i) =>
    let u := { updated with ID := t.ID, CreatedAt := t.CreatedAt, UpdatedAt := now }
    .ok ({ ts with Todos := ts.Todos.set i u }, u)

/-- Embeds `TodoStorage.DeleteTodo`: find the record and remove it,
preserving the order of the rest. -/
def deleteTodo (ts : TodoStorage) (id : Int) : Except String TodoStorage :=
  match findTodoByID ts id with
  | none => .error "todo not found"
  | some (_, i) => .ok { ts with Todos := ts.Todos.eraseIdx i }

/-- Embeds `TodoStorage.GetAllTodos` (the defensive copy is identity on
immutable values). -/
def getAllTodos (ts : TodoStorage) : List Todo := ts.Todos

/-- JSON values, the level at which `encoding/json` is embedded. -/
inductive Json where
  | num (n : Int)
  | str (s : String)
  | boolean (b : Bool)
  | arr (xs : List Json)
  | obj (fields : List (String × Json))

/-- First field with the given key, as Go field lookup on a JSON object. -/
def lookupField (fields : List (String × Json)) (k : String) : Option Json :=
  match fields with
  | [] => none
  | (k', v) :: rest => if k' = k then some v else lookupField rest k

/-- Marshalling a `Todo` with its Go JSON tags. -/
def marshalTodo (t : Todo) : Json :=
  .obj [("id", .num t.ID), ("title", .str t.Title),
        ("description", .str t.Description), ("completed", .boolean t.Completed),
        ("created_at", .num t.CreatedAt), ("updated_at", .num t.UpdatedAt)]

/-- Marshalling a `TodoStorage` with its Go JSON tags. -/
def marshalStorage (ts : TodoStorage) : Json :=
  .obj [("todos", .arr (ts.Todos.map marshalTodo)), ("next_id", .num ts.NextID)]

/-- Decode an integer field: missing keeps the zero value, wrong type fails. -/
def decodeInt (fields : List (String × Json)) (k : String) : Option Int :=
  match lookupField fields k with
  | none => some 0
  | some (.num n) => some n
  | some _ => none

/-- Decode a string field: missing keeps the zero value, wrong type fails. -/
def decodeStr (fields : List (String × Json)) (k : String) : Option String :=
  match lookupField fields k with
  | none => some ""
  | some (.str s) => some s
  | some _ => none

/-- Decode a boolean field: missing keeps the zero value, wrong type fails. -/
def decodeBool (fields : List (String × Json)) (k : String) : Option Bool :=
  match lookupField fields k with
  | none => some false
  | some (.boolean b) => some b
  | some _ => none

/-- Unmarshalling one `Todo` from a JSON value. -/
def unmarshalTodo (j : Json) : Option Todo :=
  match j with
  | .obj fields => do
    let id ← decodeInt fields "id"
    let title ← decodeStr fields "title"
    let descr ← decodeStr fields "description"
    let comp ← decodeBool fields "completed"
    let ca ← decodeInt fields "created_at"
    let ua ← decodeInt fields "updated_at"
    some ⟨id, title, descr, comp, ca, ua⟩
  | _ => none

/-- Unmarshalling a list of `Todo` records elementwise. -/
def unmarshalTodos : List Json → Option (List Todo)
  | [] => some []
  | j :: js => do
    let t ← unmarshalTodo j
    let ts ← unmarshalTodos js
    some (t :: ts)

/-- Unmarshalling a `TodoStorage` from a JSON value. -/
def unmarshalStorage (j : Json) : Option TodoStorage :=
  match j with
  | .obj fields => do
    let todos ← (match lookupField fields "todos" with
      | none => some []
      | some (.arr xs) => unmarshalTodos xs
      | some _ => none)
    let nid ← decodeInt fields "next_id"
    some ⟨todos, nid⟩
  | _ => none

/-- What the backing file can hold: an empty byte string, a JSON
document, or non-empty unparsable bytes. -/
inductive FileContent where
  | empty
  | json (j : Json)
  | garbage (s : String)

/-- Embeds `repository.FileBasedTodoRepository`: the in-memory storage
plus the backing file (`none` = the file does not exist). -/
structure RepoState where
  storage : TodoStorage
  file : Option FileContent

/-- Embeds `NewFileBasedTodoRepository` over a given initial file. -/
def initialRepo (f : Option FileContent) : RepoState :=
  { storage := newTodoStorage, file := f }

/-- Embeds the repository's internal `saveUnsafe` (and the public
`Save`, whose body is the same): marshal the storage and overwrite the
file; `wOk` tells whether `os.WriteFile` succeeds. -/
def saveNoLock (r : RepoState) (wOk : Bool) : RepoState × Except String Unit :=
  if wOk then ({ r with file := some (.json (marshalStorage r.storage)) }, .ok ())
  else (r, .error "failed to write file")

/-- Embeds `FileBasedTodoRepository.Save`. -/
def repoSave (r : RepoState) (wOk : Bool) : RepoState × Except String Unit :=
  saveNoLock r wOk

/-- Embeds `FileBasedTodoRepository.Load`: no file or an empty file
resets to a fresh empty storage; a JSON document is unmarshalled; a
parse failure is an error that leaves the storage as it was. -/
def repoLoad (r : RepoState) : RepoState × Except String Unit :=
  match r.file with
  | none => ({ r with storage := newTodoStorage }, .ok ())
  | some .empty => ({ r with storage := newTodoStorage }, .ok ())
  | some (.garbage _) => (r, .error "failed to unmarshal JSON")
  | some (.json j) =>
    match unmarshalStorage j with
    | none => (r, .error "failed to unmarshal JSON")
    | some s => ({ r with storage := s }, .ok ())

/-- Embeds `FileBasedTodoRepository.GetAll`. -/
def repoGetAll (r : RepoState) : Except String (List Todo) :=
  .ok (getAllTodos r.storage)

/-- Embeds `FileBasedTodoRepository.GetByID`. -/
def repoGetByID (r : RepoState) (id : Int) : Except String Todo :=
  match findTodoByID r.storage id with
  | none => .error ("todo with ID " ++ toString id ++ " not found")
  | some (t, _) => .ok t

/-- Embeds `FileBasedTodoRepository.Create`.  The `Option Todo` argument
embeds the `*models.Todo` pointer (`none` = nil).  Nil check, then
validation, then the in-memory add, then the file write; a failed write
reports an error but the state component keeps the mutation. -/
def repoCreate (r : RepoState) (todo : Option Todo) (now : Int) (wOk : Bool) :
    RepoState × Except String Todo :=
  match todo with
  | none => (r, .error "todo cannot be nil")
  | some t =>
    match validate t with
    | some e => (r, .error ("validation failed: " ++ e))
    | none =>
      let p := addTodo r.storage t now
      let r1 : RepoState := { r with storage := p.1 }
      match saveNoLock r1 wOk with
      | (r2, .ok _) => (r2, .ok p.2)
      | (r2, .error e) => (r2, .error ("failed to save todo: " ++ e))

/-- Embeds `FileBasedTodoRepository.Update`.  Nil check, then validation
(before the existence check inside `updateTodo`), then the in-memory
update, then the file write. -/
def repoUpdate (r : RepoState) (id : Int) (todo : Option Todo) (now : Int) (wOk : Bool) :
    RepoState × Except String Todo :=
  match todo with
  | none => (r, .error "todo cannot be nil")
  | some t =>
    match validate t with
    | some e => (r, .error ("validation failed: " ++ e))
    | none =>
      match updateTodo r.storage id t now with
      | .error e =>
        (r, .error ("failed to update todo with ID " ++ toString id ++ ": " ++ e))
      | .ok (s, u) =>
        let r1 : RepoState := { r with storage := s }
        match saveNoLock r1 wOk with
        | (r2, .ok _) => (r2, .ok u)
        | (r2, .error e) => (r2, .error ("failed to save updated todo: " ++ e))

/-- Embeds `FileBasedTodoRepository.Delete`. -/
def repoDelete (r : RepoState) (id : Int) (wOk : Bool) :
    RepoState × Except String Unit :=
  match deleteTodo r.storage id with
  | .error e =>
    (r, .error ("failed to delete todo with ID " ++ toString id ++ ": " ++ e))
  | .ok s =>
    let r1 : RepoState := { r with storage := s }
    match saveNoLock r1 wOk with
    | (r2, .ok _) => (r2, .ok ())
    | (r2, .error e) => (r2, .error ("failed to save after deletion: " ++ e))

/-- Embeds `TodoServiceImpl.validateTodoInput`: title trim-emptiness,
then raw title length over 200, then raw description length over 1000. -/
def validateTodoInput (title descr : String) : Option String :=
  if trimSpace title = "" then some "title is required and cannot be empty"
  else if title.length > 200 then some "title must be 200 characters or less"
  else if descr.length > 1000 then some "description must be 1000 characters or less"
  else none

/-- Embeds `TodoServiceImpl.CreateTodo`: validate the raw input, then
build the draft from the trimmed fields and call the repository. -/
def serviceCreateTodo (r : RepoState) (title descr : String) (now : Int) (wOk : Bool) :
    RepoState × Except String Todo :=
  match validateTodoInput title descr with
  | some e => (r, .error ("validation failed: " ++ e))
  | none =>
    let t : Todo :=
      { ID := 0, Title := trimSpace title, Description := trimSpace descr,
        Completed := false, CreatedAt := 0, UpdatedAt := 0 }
    match repoCreate r (some t) now wOk with
    | (r1, .ok created) => (r1, .ok created)
    | (r1, .error e) => (r1, .error ("failed to create todo: " ++ e))

/-- Embeds `TodoServiceImpl.UpdateTodo`: positive-id guard, input
validation, existence check via `GetByID`, then the repository update
with `ID` and `CreatedAt` taken from the existing record. -/
def serviceUpdateTodo (r : RepoState) (id : Int) (title descr : String)
    (completed : Bool) (now : Int) (wOk : Bool) : RepoState × Except String Todo :=
  if id ≤ 0 then (r, .error "invalid todo ID: ID must be a positive integer")
  else
    match validateTodoInput title descr with
    | some e => (r, .error ("validation failed: " ++ e))
    | none =>
      match repoGetByID r id with
      | .error e => (r, .error ("todo not found: " ++ e))
      | .ok existing =>
        let u : Todo :=
          { ID := existing.ID, Title := trimSpace title, Description := trimSpace descr,
            Completed := completed, CreatedAt := existing.CreatedAt, UpdatedAt := 0 }
        match repoUpdate r id (some u) now wOk with
        | (r1, .ok ut) => (r1, .ok ut)
        | (r1, .error e) => (r1, .error ("failed to update todo: " ++ e))

/-- Embeds `TodoServiceImpl.DeleteTodo`: positive-id guard, existence
check via `GetByID`, then the repository delete. -/
def serviceDeleteTodo (r : RepoState) (id : Int) (wOk : Bool) :
    RepoState × Except String Unit :=
  if id ≤ 0 then (r, .error "invalid todo ID: ID must be a positive integer")
  else
    match repoGetByID r id with
    | .error e => (r, .error ("todo not found: " ++ e))
    | .ok _ =>
      match repoDelete r id wOk with
      | (r1, .ok _) => (r1, .ok ())
      | (r1, .error e) => (r1, .error ("failed to delete todo: " ++ e))

end GoTodo

namespace GoTodo

/-! ### Helper lemmas: JSON round-trip -/

/-- Unmarshalling inverts marshalling on a single record. -/
theorem unmarshalTodo_marshalTodo (t : Todo) :
    unmarshalTodo (marshalTodo t) = some t := by
  cases t; rfl

/-- Unmarshalling inverts marshalling on a list of records. -/
theorem unmarshalTodos_map_marshalTodo (l : List Todo) :
    unmarshalTodos (l.map marshalTodo) = some l := by
  induction l with
  | nil => rfl
  | cons t ts ih =>
    simp [unmarshalTodos, unmarshalTodo_marshalTodo, ih]

/-- Unmarshalling inverts marshalling on the whole storage. -/
theorem unmarshalStorage_marshalStorage (s : TodoStorage) :
    unmarshalStorage (marshalStorage s) = some s := by
  cases s with
  | mk todos nid =>
    simp [marshalStorage, unmarshalStorage, lookupField, decodeInt,
      unmarshalTodos_map_marshalTodo]

/-! ### Helper lemmas: the linear scan -/

/-- A failing scan means no record with the id is present. -/
theorem findFrom_eq_none {l : List Todo} {id : Int} {i : Nat} :
    findFrom l id i = none ↔ ∀ t ∈ l, t.ID ≠ id := by
  induction l generalizing i with
  | nil => simp [findFrom]
  | cons a l ih =>
    by_cases h : a.ID = id
    · simp [findFrom, h]
    · simp [findFrom, h, ih]

/-- A successful scan returns an in-range index (relative to the start
index) holding the returned record, whose id matches. -/
theorem findFrom_some {l : List Todo} {id : Int} {i : Nat} {t : Todo} {j : Nat}
    (h : findFrom l id i = some (t, j)) :
    i ≤ j ∧ l[j - i]? = some t ∧ t.ID = id := by
  induction l generalizing i with
  | nil => simp [findFrom] at h
  | cons a l ih =>
    by_cases ha : a.ID = id
    · simp [findFrom, ha] at h
      obtain ⟨rfl, rfl⟩ := h
      simp [ha]
    · simp [findFrom, ha] at h
      obtain ⟨hij, hget, hid⟩ := ih h
      refine ⟨by omega, ?_, hid⟩
      have : j - i = (j - (i + 1)) + 1 := by omega
      rw [this]
      simpa using hget

/-- Specialization of `findFrom_some` to `findTodoByID`. -/
theorem findTodoByID_some {ts : TodoStorage} {id : Int} {t : Todo} {i : Nat}
    (h : findTodoByID ts id = some (t, i)) :
    ts.Todos[i]? = some t ∧ t.ID = id := by
  have := findFrom_some (l := ts.Todos) (h := h)
  simpa using this

/-- `findTodoByID` fails exactly when no record has the id. -/
theorem findTodoByID_eq_none {ts : TodoStorage} {id : Int} :
    findTodoByID ts id = none ↔ ∀ t ∈ ts.Todos, t.ID ≠ id :=
  findFrom_eq_none

/-! ### Helper lemmas: lists -/

/-- Setting an index to the value it already holds is the identity. -/
theorem set_getElem_self {α : Type} : ∀ (l : List α) (i : Nat) (a : α),
    l[i]? = some a → l.set i a = l
  | [], _, _, h => by simp at h
  | x :: l, 0, a, h => by simp at h; simp [h]
  | x :: l, i + 1, a, h => by
    simp at h
    simp [List.set, set_getElem_self l i a h]

/-- `map` commutes with `eraseIdx`. -/
theorem map_eraseIdx {α β : Type} (f : α → β) :
    ∀ (l : List α) (i : Nat), (l.eraseIdx i).map f = (l.map f).eraseIdx i
  | [], _ => by simp
  | _ :: _, 0 => by simp
  | x :: l, i + 1 => by simp [List.eraseIdx, map_eraseIdx f l i]

/-- In a duplicate-free list, the element at an index does not survive
erasing that index. -/
theorem not_mem_eraseIdx_of_nodup {α : Type} [DecidableEq α] :
    ∀ (l : List α) (i : Nat) (a : α), l.Nodup → l[i]? = some a →
      a ∉ l.eraseIdx i
  | [], _, _, _, h => by simp at h
  | x :: l, 0, a, hnd, h => by
    simp at h
    subst h
    simp [List.eraseIdx]
    exact (List.nodup_cons.mp hnd).1
  | x :: l, i + 1, a, hnd, h => by
    simp at h
    have hmem : a ∈ l := by
      have := List.getElem?_eq_some.mp h
      obtain ⟨hlt, rfl⟩ := this
      exact List.getElem_mem hlt
    have hnd' := List.nodup_cons.mp hnd
    simp [List.eraseIdx]
    constructor
    · intro hax
      exact hnd'.1 (hax ▸ hmem)
    · exact not_mem_eraseIdx_of_nodup l i a hnd'.2 h

end GoTodo

namespace GoTodo

/-! ### The storage invariant and its preservation -/

/-- The invariant of §3 of the spec: record ids are pairwise distinct and
`NextID` strictly exceeds every stored id. -/
def StorageInv (s : TodoStorage) : Prop :=
  (s.Todos.map Todo.ID).Nodup ∧ ∀ x ∈ s.Todos.map Todo.ID, x < s.NextID

/-- The record produced by `addTodo` carries the pre-increment counter as
its id. -/
theorem addTodo_snd_ID (s : TodoStorage) (t : Todo) (now : Int) :
    (addTodo s t now).2.ID = s.NextID := rfl

/-- `addTodo` preserves the storage invariant. -/
theorem storageInv_addTodo {s : TodoStorage} (h : StorageInv s)
    (t : Todo) (now : Int) : StorageInv (addTodo s t now).1 := by
  obtain ⟨hnd, hlt⟩ := h
  constructor
  · simp only [addTodo, List.map_append, List.map_cons, List.map_nil]
    rw [List.nodup_append]
    refine ⟨hnd, List.nodup_singleton _, ?_⟩
    intro x hx hx2
    simp only [List.mem_singleton] at hx2
    have hxlt := hlt x hx
    have hID : (setTimestamps { t with ID := s.NextID } now).ID = s.NextID := rfl
    rw [hID] at hx2
    omega
  · intro x hx
    simp only [addTodo, List.map_append, List.map_cons, List.map_nil,
      List.mem_append, List.mem_singleton] at hx
    show x < s.NextID + 1
    have hID : (setTimestamps { t with ID := s.NextID } now).ID = s.NextID := rfl
    rcases hx with hx | hx
    · have := hlt x hx
      omega
    · rw [hx, hID]
      omega

/-- `updateTodo` leaves the list of ids and the counter unchanged. -/
theorem updateTodo_ids {s : TodoStorage} {id : Int} {d : Todo} {now : Int}
    {s' : TodoStorage} {u : Todo} (h : updateTodo s id d now = .ok (s', u)) :
    s'.Todos.map Todo.ID = s.Todos.map Todo.ID ∧ s'.NextID = s.NextID ∧
      u.ID = id := by
  unfold updateTodo at h
  cases hf : findTodoByID s id with
  | none => rw [hf] at h; exact absurd h (by simp)
  | some p =>
    obtain ⟨t0, i⟩ := p
    rw [hf] at h
    simp at h
    obtain ⟨hs', hu⟩ := h
    obtain ⟨hget, hid⟩ := findTodoByID_some hf
    subst hs' hu
    refine ⟨?_, rfl, hid⟩
    simp only [List.map_set]
    apply set_getElem_self
    simp [hget]

/-- `updateTodo` preserves the storage invariant. -/
theorem storageInv_updateTodo {s : TodoStorage} {id : Int} {d : Todo}
    {now : Int} {s' : TodoStorage} {u : Todo} (hinv : StorageInv s)
    (h : updateTodo s id d now = .ok (s', u)) : StorageInv s' := by
  obtain ⟨hids, hnid, _⟩ := updateTodo_ids h
  exact ⟨hids ▸ hinv.1, by rw [hids, hnid]; exact hinv.2⟩

/-- `deleteTodo` erases the found index. -/
theorem deleteTodo_ok {s : TodoStorage} {id : Int} {s' : TodoStorage}
    (h : deleteTodo s id = .ok s') :
    ∃ t0 i, findTodoByID s id = some (t0, i) ∧
      s'.Todos = s.Todos.eraseIdx i ∧ s'.NextID = s.NextID := by
  unfold deleteTodo at h
  cases hf : findTodoByID s id with
  | none => rw [hf] at h; exact absurd h (by simp)
  | some p =>
    obtain ⟨t0, i⟩ := p
    rw [hf] at h
    simp at h
    exact ⟨t0, i, rfl, by rw [← h], by rw [← h]⟩

/-- `deleteTodo` preserves the storage invariant. -/
theorem storageInv_deleteTodo {s : TodoStorage} {id : Int} {s' : TodoStorage}
    (hinv : StorageInv s) (h : deleteTodo s id = .ok s') : StorageInv s' := by
  obtain ⟨t0, i, _, htodos, hnid⟩ := deleteTodo_ok h
  have hsub : List.Sublist (s'.Todos.map Todo.ID) (s.Todos.map Todo.ID) := by
    rw [htodos, map_eraseIdx]
    exact List.eraseIdx_sublist _ i
  exact ⟨hinv.1.sublist hsub, fun x hx => hnid ▸ hinv.2 x (hsub.mem hx)⟩

/-- After a successful `deleteTodo`, the id is gone (given the invariant,
which rules out a second record with the same id). -/
theorem findTodoByID_after_delete {s : TodoStorage} {id : Int}
    {s' : TodoStorage} (hinv : StorageInv s)
    (h : deleteTodo s id = .ok s') : findTodoByID s' id = none := by
  obtain ⟨t0, i, hf, htodos, _⟩ := deleteTodo_ok h
  obtain ⟨hget, hid⟩ := findTodoByID_some hf
  rw [findTodoByID_eq_none]
  intro t ht hid'
  have hmem : id ∈ s'.Todos.map Todo.ID := by
    exact List.mem_map.mpr ⟨t, ht, hid'⟩
  rw [htodos, map_eraseIdx] at hmem
  refine not_mem_eraseIdx_of_nodup (s.Todos.map Todo.ID) i id hinv.1 ?_ hmem
  simp [hget, hid]

end GoTodo

namespace GoTodo

/-! ### Repository-level steps and reachability -/

/-- How each mutating repository call changes the in-memory storage:
`repoCreate` either leaves it alone (nil or invalid draft) or performs
the `addTodo`; the file write does not touch the storage. -/
theorem repoCreate_fst_storage (r : RepoState) (t? : Option Todo)
    (now : Int) (wOk : Bool) :
    (repoCreate r t? now wOk).1.storage = r.storage ∨
      ∃ t, t? = some t ∧
        (repoCreate r t? now wOk).1.storage = (addTodo r.storage t now).1 := by
  cases t? with
  | none => left; rfl
  | some t =>
    cases hv : validate t with
    | some e => left; simp [repoCreate, hv]
    | none =>
      right
      refine ⟨t, rfl, ?_⟩
      cases wOk <;> simp [repoCreate, hv, saveNoLock]

/-- `repoUpdate` either leaves the storage alone or performs the
in-memory `updateTodo`. -/
theorem repoUpdate_fst_storage (r : RepoState) (id : Int) (t? : Option Todo)
    (now : Int) (wOk : Bool) :
    (repoUpdate r id t? now wOk).1.storage = r.storage ∨
      ∃ t s' u, t? = some t ∧ updateTodo r.storage id t now = .ok (s', u) ∧
        (repoUpdate r id t? now wOk).1.storage = s' := by
  cases t? with
  | none => left; rfl
  | some t =>
    cases hv : validate t with
    | some e => left; simp [repoUpdate, hv]
    | none =>
      cases hu : updateTodo r.storage id t now with
      | error e => left; simp [repoUpdate, hv, hu]
      | ok p =>
        obtain ⟨s', u⟩ := p
        right
        refine ⟨t, s', u, rfl, hu, ?_⟩
        cases wOk <;> simp [repoUpdate, hv, hu, saveNoLock]

/-- `repoDelete` either leaves the storage alone or performs the
in-memory `deleteTodo`. -/
theorem repoDelete_fst_storage (r : RepoState) (id : Int) (wOk : Bool) :
    (repoDelete r id wOk).1.storage = r.storage ∨
      ∃ s', deleteTodo r.storage id = .ok s' ∧
        (repoDelete r id wOk).1.storage = s' := by
  cases hd : deleteTodo r.storage id with
  | error e => left; simp [repoDelete, hd]
  | ok s' =>
    right
    refine ⟨s', rfl, ?_⟩
    cases wOk <;> simp [repoDelete, hd, saveNoLock]

/-- One mutating call on the repository (arbitrary arguments, arbitrary
clock, arbitrary write outcome). -/
def StepR (r r' : RepoState) : Prop :=
  (∃ t? now wOk, r' = (repoCreate r t? now wOk).1) ∨
  (∃ id t? now wOk, r' = (repoUpdate r id t? now wOk).1) ∨
  (∃ id wOk, r' = (repoDelete r id wOk).1)

/-- Zero or more mutating calls. -/
def ReachableFrom (r r' : RepoState) : Prop := Relation.ReflTransGen StepR r r'

/-- States reachable from a fresh repository (empty collection,
`next_id = 1`) over some initial file. -/
def Reachable (r : RepoState) : Prop :=
  ∃ f, ReachableFrom (initialRepo f) r

/-- A mutating call preserves the storage invariant. -/
theorem stepR_inv {r r' : RepoState} (h : StepR r r')
    (hinv : StorageInv r.storage) : StorageInv r'.storage := by
  rcases h with ⟨t?, now, wOk, rfl⟩ | ⟨id, t?, now, wOk, rfl⟩ | ⟨id, wOk, rfl⟩
  · rcases repoCreate_fst_storage r t? now wOk with h | ⟨t, _, h⟩
    · rw [h]; exact hinv
    · rw [h]; exact storageInv_addTodo hinv t now
  · rcases repoUpdate_fst_storage r id t? now wOk with h | ⟨t, s', u, _, hu, h⟩
    · rw [h]; exact hinv
    · rw [h]; exact storageInv_updateTodo hinv hu
  · rcases repoDelete_fst_storage r id wOk with h | ⟨s', hd, h⟩
    · rw [h]; exact hinv
    · rw [h]; exact storageInv_deleteTodo hinv hd

/-- A mutating call never decreases the id counter. -/
theorem stepR_nextID_mono {r r' : RepoState} (h : StepR r r') :
    r.storage.NextID ≤ r'.storage.NextID := by
  rcases h with ⟨t?, now, wOk, rfl⟩ | ⟨id, t?, now, wOk, rfl⟩ | ⟨id, wOk, rfl⟩
  · rcases repoCreate_fst_storage r t? now wOk with h | ⟨t, _, h⟩
    · rw [h]
    · rw [h]; show r.storage.NextID ≤ r.storage.NextID + 1; omega
  · rcases repoUpdate_fst_storage r id t? now wOk with h | ⟨t, s', u, _, hu, h⟩
    · rw [h]
    · rw [h, (updateTodo_ids hu).2.1]
  · rcases repoDelete_fst_storage r id wOk with h | ⟨s', hd, h⟩
    · rw [h]
    · obtain ⟨t0, i, _, _, hnid⟩ := deleteTodo_ok hd
      rw [h, hnid]

/-- The id counter is monotone along any sequence of mutating calls. -/
theorem reachableFrom_nextID_mono {r r' : RepoState}
    (h : ReachableFrom r r') : r.storage.NextID ≤ r'.storage.NextID := by
  induction h with
  | refl => exact le_refl _
  | tail _ hstep ih => exact le_trans ih (stepR_nextID_mono hstep)

/-- The storage invariant holds in every reachable state. -/
theorem reachable_storageInv {r : RepoState} (h : Reachable r) :
    StorageInv r.storage := by
  obtain ⟨f, hr⟩ := h
  induction hr with
  | refl => exact ⟨by simp [initialRepo, newTodoStorage], by simp [initialRepo, newTodoStorage]⟩
  | tail _ hstep ih => exact stepR_inv hstep ih

/-- A create that returns a record assigned it the pre-call counter. -/
theorem repoCreate_ok_ID {r : RepoState} {t? : Option Todo} {now : Int}
    {wOk : Bool} {created : Todo}
    (h : (repoCreate r t? now wOk).2 = .ok created) :
    created.ID = r.storage.NextID := by
  cases t? with
  | none => simp [repoCreate] at h
  | some t =>
    cases hv : validate t with
    | some e => simp [repoCreate, hv] at h
    | none =>
      cases wOk with
      | false => simp [repoCreate, hv, saveNoLock] at h
      | true =>
        simp [repoCreate, hv, saveNoLock] at h
        rw [← h]
        rfl

end GoTodo

namespace GoTodo

/-! ### Concrete states used by witnesses -/

/-- A fresh repository with no backing file. -/
def emptyRepo : RepoState := initialRepo none

/-- A record as stored after one successful create at time 3. -/
def sampleTodo : Todo := ⟨1, "a", "b", false, 3, 3⟩

/-- A repository holding one record, counter at 2. -/
def sampleRepo : RepoState :=
  { storage := { Todos := [sampleTodo], NextID := 2 }, file := none }

/-! ### The claims -/

/-- C1, counterexample: on the empty collection, `update(1, draft)` with
an invalid draft (empty title) returns the validation error, not
`NotFoundError`, at both the repository and the orchestration layer —
the code validates the draft before it checks existence, contrary to the
claim's "checked before validation". -/
theorem claim_C1_counterexample :
    findTodoByID emptyRepo.storage 1 = none ∧
    validate ⟨0, "", "x", false, 0, 0⟩ = some "title is required" ∧
    (repoUpdate emptyRepo 1 (some ⟨0, "", "x", false, 0, 0⟩) 0 true).2 =
      .error "validation failed: title is required" ∧
    (serviceUpdateTodo emptyRepo 1 "" "x" false 0 true).2 =
      .error "validation failed: title is required and cannot be empty" ∧
    ("validation failed: title is required" : String) ≠
      "failed to update todo with ID 1: todo not found" :=
  ⟨rfl, rfl, rfl, rfl, by decide⟩

/-- C1 (amended): `update(id, draft)` with an id for which no record
exists returns `NotFoundError` whenever the draft passes entity
validation; validation runs before the existence check, so a missing id
together with an invalid draft yields the `ValidationError` instead. -/
theorem claim_C1_update_missing_id (r : RepoState) (id : Int) (d : Todo)
    (now : Int) (wOk : Bool) (hv : validate d = none)
    (hf : findTodoByID r.storage id = none) :
    repoUpdate r id (some d) now wOk =
      (r, .error ("failed to update todo with ID " ++ toString id ++
        ": todo not found")) := by
  simp [repoUpdate, updateTodo, hv, hf]
  rw [String.append_assoc]
  have hlit : (": " ++ "todo not found" : String) = ": todo not found" := rfl
  rw [hlit]

/-- C1 witness: the amended theorem at a concrete input. -/
theorem claim_C1_witness :
    repoUpdate emptyRepo 1 (some ⟨0, "t", "", false, 0, 0⟩) 0 true =
      (emptyRepo, .error ("failed to update todo with ID " ++
        toString (1 : Int) ++ ": todo not found")) :=
  claim_C1_update_missing_id emptyRepo 1 ⟨0, "t", "", false, 0, 0⟩ 0 true rfl rfl

/-- C3: a successful `update(id, draft)` stores (and returns) a record
whose `id` and `created_at` are the stored record's, whose title,
description and completed flag are the draft's, and whose `updated_at`
is the current time — for any draft, including one whose `ID` and
`CreatedAt` fields differ from the stored record's; the counter is
untouched. -/
theorem claim_C3_update_frame (r : RepoState) (id : Int) (t0 : Todo)
    (i : Nat) (d : Todo) (now : Int)
    (hf : findTodoByID r.storage id = some (t0, i))
    (hv : validate d = none) :
    (repoUpdate r id (some d) now true).2 =
      .ok ⟨t0.ID, d.Title, d.Description, d.Completed, t0.CreatedAt, now⟩ ∧
    (repoUpdate r id (some d) now true).1.storage.Todos =
      r.storage.Todos.set i
        ⟨t0.ID, d.Title, d.Description, d.Completed, t0.CreatedAt, now⟩ ∧
    (repoUpdate r id (some d) now true).1.storage.NextID =
      r.storage.NextID := by
  simp [repoUpdate, updateTodo, hv, hf, saveNoLock]

/-- C3 witness: updating the sample record with a draft that fakes both
`ID` and `CreatedAt`. -/
theorem claim_C3_witness :
    (repoUpdate sampleRepo 1 (some ⟨99, "new", "nd", true, 77, 8⟩) 9 true).2 =
      .ok ⟨sampleTodo.ID, "new", "nd", true, sampleTodo.CreatedAt, 9⟩ ∧
    (repoUpdate sampleRepo 1 (some ⟨99, "new", "nd", true, 77, 8⟩) 9 true).1.storage.Todos =
      sampleRepo.storage.Todos.set 0
        ⟨sampleTodo.ID, "new", "nd", true, sampleTodo.CreatedAt, 9⟩ ∧
    (repoUpdate sampleRepo 1 (some ⟨99, "new", "nd", true, 77, 8⟩) 9 true).1.storage.NextID =
      sampleRepo.storage.NextID :=
  claim_C3_update_frame sampleRepo 1 sampleTodo 0 ⟨99, "new", "nd", true, 77, 8⟩ 9 rfl rfl

/-- C4: a successful `persist()` followed by a fresh `load()` of the
same backing file restores exactly the persisted collection — same
records, all fields intact, same `next_id` — whatever storage the fresh
instance held before loading. -/
theorem claim_C4_roundtrip (r rf : RepoState)
    (h : rf.file = ((repoSave r true).1).file) :
    (repoLoad rf).1.storage = r.storage ∧ (repoLoad rf).2 = .ok () := by
  have hfile : rf.file = some (.json (marshalStorage r.storage)) := h
  unfold repoLoad
  rw [hfile]
  simp [unmarshalStorage_marshalStorage]

/-- C4 witness: round-trip of the sample repository through its file. -/
theorem claim_C4_witness :
    (repoLoad ((repoSave sampleRepo true).1)).1.storage = sampleRepo.storage ∧
    (repoLoad ((repoSave sampleRepo true).1)).2 = .ok () :=
  claim_C4_roundtrip sampleRepo ((repoSave sampleRepo true).1) rfl

/-- C9: a nil draft pointer makes `Create` and `Update` return the
"todo cannot be nil" error with the in-memory collection, the counter
and the backing file untouched (the guard precedes every mutation). -/
theorem claim_C9_nil_draft (r : RepoState) (id : Int) (now : Int) (wOk : Bool) :
    repoCreate r none now wOk = (r, .error "todo cannot be nil") ∧
    repoUpdate r id none now wOk = (r, .error "todo cannot be nil") :=
  ⟨rfl, rfl⟩

end GoTodo

namespace GoTodo

/-- When the in-memory delete succeeds, the repository state after
`repoDelete` carries exactly that storage (whether or not the file
write succeeded). -/
theorem repoDelete_fst_of_ok {r : RepoState} {id : Int} {s' : TodoStorage}
    (hd : deleteTodo r.storage id = .ok s') (wOk : Bool) :
    (repoDelete r id wOk).1.storage = s' := by
  cases wOk <;> simp [repoDelete, hd, saveNoLock]

/-- C2: in every state reachable from the fresh repository by
create/update/delete calls, the record ids are pairwise distinct and
`next_id` strictly exceeds every stored id; `next_id` never decreases
along further calls; and once `delete(id)` succeeds, `getById(id)`
reports not-found and no later successful create returns a record with
that id. -/
theorem claim_C2_ids_unique_never_reused (r : RepoState) (hr : Reachable r) :
    ((r.storage.Todos.map Todo.ID).Nodup ∧
      ∀ x ∈ r.storage.Todos.map Todo.ID, x < r.storage.NextID) ∧
    (∀ r', ReachableFrom r r' → r.storage.NextID ≤ r'.storage.NextID) ∧
    (∀ id t0 i wOk, findTodoByID r.storage id = some (t0, i) →
      findTodoByID ((repoDelete r id wOk).1).storage id = none ∧
      repoGetByID ((repoDelete r id wOk).1) id =
        .error ("todo with ID " ++ toString id ++ " not found") ∧
      (∀ r2, ReachableFrom ((repoDelete r id wOk).1) r2 →
        ∀ t? now wOk2 created,
          (repoCreate r2 t? now wOk2).2 = .ok created → created.ID ≠ id)) := by
  have hinv := reachable_storageInv hr
  refine ⟨hinv, fun r' h => reachableFrom_nextID_mono h, ?_⟩
  intro id t0 i wOk hfind
  have hdel : deleteTodo r.storage id =
      .ok { r.storage with Todos := r.storage.Todos.eraseIdx i } := by
    unfold deleteTodo
    rw [hfind]
  have hst := repoDelete_fst_of_ok hdel wOk
  have hnone : findTodoByID ((repoDelete r id wOk).1).storage id = none := by
    rw [hst]
    exact findTodoByID_after_delete hinv hdel
  refine ⟨hnone, ?_, ?_⟩
  · unfold repoGetByID
    rw [hnone]
  · intro r2 hreach2 t? now wOk2 created hok
    have hid1 : created.ID = r2.storage.NextID := repoCreate_ok_ID hok
    have hmono : ((repoDelete r id wOk).1).storage.NextID ≤ r2.storage.NextID :=
      reachableFrom_nextID_mono hreach2
    have hkeep : ((repoDelete r id wOk).1).storage.NextID = r.storage.NextID := by
      rw [hst]
    have hidlt : id < r.storage.NextID := by
      obtain ⟨hget, hidt⟩ := findTodoByID_some hfind
      obtain ⟨hlen, hgete⟩ := List.getElem?_eq_some.mp hget
      exact hinv.2 id (List.mem_map.mpr ⟨t0, hgete ▸ List.getElem_mem hlen, hidt⟩)
    omega

/-- Draft used to reach a one-record state in the C2 witness. -/
def wDraft : Todo := ⟨0, "a", "b", false, 0, 0⟩

/-- The state after one successful create at time 3 on a fresh repository. -/
def reach1Repo : RepoState := (repoCreate (initialRepo none) (some wDraft) 3 true).1

/-- C2 witness: the theorem applied to the concretely reachable
one-record state, instantiating both the invariant and the
delete-then-lookup consequence at id 1. -/
theorem claim_C2_witness :
    ((reach1Repo.storage.Todos.map Todo.ID).Nodup ∧
      ∀ x ∈ reach1Repo.storage.Todos.map Todo.ID, x < reach1Repo.storage.NextID) ∧
    findTodoByID ((repoDelete reach1Repo 1 true).1).storage 1 = none := by
  have hr : Reachable reach1Repo :=
    ⟨none, Relation.ReflTransGen.single (Or.inl ⟨some wDraft, 3, true, rfl⟩)⟩
  have h := claim_C2_ids_unique_never_reused reach1Repo hr
  exact ⟨h.1, (h.2.2 1 ⟨1, "a", "b", false, 3, 3⟩ 0 true rfl).1⟩

end GoTodo

namespace GoTodo

/-- C5, counterexample: `create` does not always set `created_at` to the
current time — a valid draft carrying a non-zero `created_at` (here 5)
keeps it, because `SetTimestamps` only stamps `created_at` when it is
unset; at creation time 10 the stored record has `created_at = 5` and
`updated_at = 10`, refuting "sets both created_at and updated_at to the
same current time" for every valid draft. -/
theorem claim_C5_counterexample :
    validate ⟨0, "a", "", false, 5, 0⟩ = none ∧
    (repoCreate emptyRepo (some ⟨0, "a", "", false, 5, 0⟩) 10 true).2 =
      .ok ⟨1, "a", "", false, 5, 10⟩ ∧
    (5 : Int) ≠ (10 : Int) :=
  ⟨rfl, rfl, by decide⟩

/-- C5 (amended): for every valid draft whose `created_at` is unset —
as is the case for every draft built by the orchestration layer —
`create` assigns `id = next_id`, increments `next_id`, sets both
`created_at` and `updated_at` to the same current time, appends the
record at the end, persists the collection, and returns the record;
in particular the first create on an empty collection yields `id = 1`,
`completed = false` and `created_at = updated_at`. -/
theorem claim_C5_create_success (r : RepoState) (d : Todo) (now : Int)
    (hv : validate d = none) (hz : d.CreatedAt = 0) :
    (repoCreate r (some d) now true).2 =
      .ok ⟨r.storage.NextID, d.Title, d.Description, d.Completed, now, now⟩ ∧
    (repoCreate r (some d) now true).1.storage.Todos =
      r.storage.Todos ++
        [⟨r.storage.NextID, d.Title, d.Description, d.Completed, now, now⟩] ∧
    (repoCreate r (some d) now true).1.storage.NextID =
      r.storage.NextID + 1 ∧
    (repoCreate r (some d) now true).1.file =
      some (.json (marshalStorage (repoCreate r (some d) now true).1.storage)) ∧
    (∀ tnow, (serviceCreateTodo emptyRepo "Buy groceries" "Milk, bread, eggs"
        tnow true).2 =
      .ok ⟨1, "Buy groceries", "Milk, bread, eggs", false, tnow, tnow⟩) := by
  refine ⟨?_, ?_, ?_, ?_, fun tnow => rfl⟩
  all_goals simp [repoCreate, hv, saveNoLock, addTodo, setTimestamps, hz]

/-- C5 witness: the amended theorem at a concrete fresh repository. -/
theorem claim_C5_witness :
    (repoCreate emptyRepo (some ⟨0, "a", "b", false, 0, 0⟩) 10 true).2 =
      .ok ⟨emptyRepo.storage.NextID, "a", "b", false, 10, 10⟩ ∧
    (repoCreate emptyRepo (some ⟨0, "a", "b", false, 0, 0⟩) 10 true).1.storage.Todos =
      emptyRepo.storage.Todos ++
        [⟨emptyRepo.storage.NextID, "a", "b", false, 10, 10⟩] ∧
    (repoCreate emptyRepo (some ⟨0, "a", "b", false, 0, 0⟩) 10 true).1.storage.NextID =
      emptyRepo.storage.NextID + 1 ∧
    (repoCreate emptyRepo (some ⟨0, "a", "b", false, 0, 0⟩) 10 true).1.file =
      some (.json (marshalStorage
        (repoCreate emptyRepo (some ⟨0, "a", "b", false, 0, 0⟩) 10 true).1.storage)) ∧
    (∀ tnow, (serviceCreateTodo emptyRepo "Buy groceries" "Milk, bread, eggs"
        tnow true).2 =
      .ok ⟨1, "Buy groceries", "Milk, bread, eggs", false, tnow, tnow⟩) :=
  claim_C5_create_success emptyRepo ⟨0, "a", "b", false, 0, 0⟩ 10 rfl rfl

/-- C6: entity validation reports `EmptyTitle` ("title is required")
exactly when the title trims to empty, `TitleTooLong` exactly when the
title survives trimming but exceeds 200 characters, and
`DescriptionTooLong` exactly when the title passes both checks and the
description exceeds 1000 characters — so the title is checked before
the description; and a `create` whose draft fails validation returns
that validation error with the collection, counter and file untouched
(scenario: empty title, description "x"). -/
theorem claim_C6_validation (t : Todo) (r : RepoState) (now : Int) (wOk : Bool) :
    (validate t = some "title is required" ↔ trimSpace t.Title = "") ∧
    (validate t = some "title must be 200 characters or less" ↔
      (trimSpace t.Title ≠ "" ∧ t.Title.length > 200)) ∧
    (validate t = some "description must be 1000 characters or less" ↔
      (trimSpace t.Title ≠ "" ∧ t.Title.length ≤ 200 ∧
        t.Description.length > 1000)) ∧
    (∀ e, validate t = some e →
      repoCreate r (some t) now wOk = (r, .error ("validation failed: " ++ e))) ∧
    repoCreate r (some ⟨0, "", "x", false, 0, 0⟩) now wOk =
      (r, .error "validation failed: title is required") := by
  refine ⟨?_, ?_, ?_, ?_, rfl⟩
  · by_cases h1 : trimSpace t.Title = "" <;>
      by_cases h2 : t.Title.length > 200 <;>
      by_cases h3 : t.Description.length > 1000 <;>
      simp +decide [validate, validateTitle, validateDescription, h1, h2, h3]
  · by_cases h1 : trimSpace t.Title = "" <;>
      by_cases h2 : t.Title.length > 200 <;>
      by_cases h3 : t.Description.length > 1000 <;>
      simp +decide [validate, validateTitle, validateDescription, h1, h2, h3]
  · by_cases h1 : trimSpace t.Title = "" <;>
      by_cases h2 : t.Title.length > 200 <;>
      by_cases h3 : t.Description.length > 1000 <;>
      simp +decide [validate, validateTitle, validateDescription, h1, h2, h3]
    all_goals omega
  · intro e he
    simp [repoCreate, he]

/-- C6 witness: the characterization at a concrete draft with an empty
title and an over-long description (the title violation wins). -/
theorem claim_C6_witness :
    (validate ⟨0, " ", "x", false, 0, 0⟩ = some "title is required" ↔
      trimSpace " " = "") ∧
    repoCreate emptyRepo (some ⟨0, "", "x", false, 0, 0⟩) 0 true =
      (emptyRepo, .error "validation failed: title is required") :=
  ⟨(claim_C6_validation ⟨0, " ", "x", false, 0, 0⟩ emptyRepo 0 true).1,
   (claim_C6_validation ⟨0, " ", "x", false, 0, 0⟩ emptyRepo 0 true).2.2.2.2⟩

end GoTodo

namespace GoTodo

/-- C7: when the file write fails after the in-memory mutation
succeeded, `create`, `update` and `delete` report the write error to the
caller, yet the in-memory collection already holds the mutation (the new
record with the incremented counter, the modified record, respectively
the removal) while the backing file is left as it was — no rollback, and
reads (`GetAll` shown for create) see the mutated state. -/
theorem claim_C7_no_rollback (r : RepoState) (t : Todo) (id : Int)
    (now : Int) (t0 : Todo) (i : Nat) (hv : validate t = none)
    (hf : findTodoByID r.storage id = some (t0, i)) :
    ((repoCreate r (some t) now false).2 =
        .error "failed to save todo: failed to write file" ∧
      (repoCreate r (some t) now false).1.storage.Todos =
        r.storage.Todos ++ [setTimestamps { t with ID := r.storage.NextID } now] ∧
      (repoCreate r (some t) now false).1.storage.NextID =
        r.storage.NextID + 1 ∧
      (repoCreate r (some t) now false).1.file = r.file ∧
      repoGetAll (repoCreate r (some t) now false).1 =
        .ok (r.storage.Todos ++
          [setTimestamps { t with ID := r.storage.NextID } now])) ∧
    ((repoUpdate r id (some t) now false).2 =
        .error "failed to save updated todo: failed to write file" ∧
      (repoUpdate r id (some t) now false).1.storage.Todos =
        r.storage.Todos.set i
          ⟨t0.ID, t.Title, t.Description, t.Completed, t0.CreatedAt, now⟩ ∧
      (repoUpdate r id (some t) now false).1.storage.NextID =
        r.storage.NextID ∧
      (repoUpdate r id (some t) now false).1.file = r.file) ∧
    ((repoDelete r id false).2 =
        .error "failed to save after deletion: failed to write file" ∧
      (repoDelete r id false).1.storage.Todos = r.storage.Todos.eraseIdx i ∧
      (repoDelete r id false).1.storage.NextID = r.storage.NextID ∧
      (repoDelete r id false).1.file = r.file) := by
  refine ⟨?_, ?_, ?_⟩
  · simp [repoCreate, hv, saveNoLock, addTodo, repoGetAll, getAllTodos]
  · simp [repoUpdate, updateTodo, hv, hf, saveNoLock]
  · simp [repoDelete, deleteTodo, hf, saveNoLock]

/-- C7 witness: the failed-persist behavior on the sample repository. -/
theorem claim_C7_witness :
    ((repoCreate sampleRepo (some ⟨0, "n", "", false, 0, 0⟩) 9 false).2 =
        .error "failed to save todo: failed to write file" ∧
      (repoCreate sampleRepo (some ⟨0, "n", "", false, 0, 0⟩) 9 false).1.storage.Todos =
        sampleRepo.storage.Todos ++
          [setTimestamps ⟨sampleRepo.storage.NextID, "n", "", false, 0, 0⟩ 9] ∧
      (repoCreate sampleRepo (some ⟨0, "n", "", false, 0, 0⟩) 9 false).1.storage.NextID =
        sampleRepo.storage.NextID + 1 ∧
      (repoCreate sampleRepo (some ⟨0, "n", "", false, 0, 0⟩) 9 false).1.file =
        sampleRepo.file ∧
      repoGetAll (repoCreate sampleRepo (some ⟨0, "n", "", false, 0, 0⟩) 9 false).1 =
        .ok (sampleRepo.storage.Todos ++
          [setTimestamps ⟨sampleRepo.storage.NextID, "n", "", false, 0, 0⟩ 9])) ∧
    ((repoUpdate sampleRepo 1 (some ⟨0, "n", "", false, 0, 0⟩) 9 false).2 =
        .error "failed to save updated todo: failed to write file" ∧
      (repoUpdate sampleRepo 1 (some ⟨0, "n", "", false, 0, 0⟩) 9 false).1.storage.Todos =
        sampleRepo.storage.Todos.set 0
          ⟨sampleTodo.ID, "n", "", false, sampleTodo.CreatedAt, 9⟩ ∧
      (repoUpdate sampleRepo 1 (some ⟨0, "n", "", false, 0, 0⟩) 9 false).1.storage.NextID =
        sampleRepo.storage.NextID ∧
      (repoUpdate sampleRepo 1 (some ⟨0, "n", "", false, 0, 0⟩) 9 false).1.file =
        sampleRepo.file) ∧
    ((repoDelete sampleRepo 1 false).2 =
        .error "failed to save after deletion: failed to write file" ∧
      (repoDelete sampleRepo 1 false).1.storage.Todos =
        sampleRepo.storage.Todos.eraseIdx 0 ∧
      (repoDelete sampleRepo 1 false).1.storage.NextID =
        sampleRepo.storage.NextID ∧
      (repoDelete sampleRepo 1 false).1.file = sampleRepo.file) :=
  claim_C7_no_rollback sampleRepo ⟨0, "n", "", false, 0, 0⟩ 1 9 sampleTodo 0 rfl rfl

/-- C8: `load()` on a missing backing file, or on an existing empty
file, succeeds and installs the fresh empty collection with
`next_id = 1`; on a non-empty parsable file it installs the parsed
collection; a parse failure (garbage bytes, or a JSON document of the
wrong shape) is reported as an error. -/
theorem claim_C8_load_cases (r : RepoState) :
    (newTodoStorage.Todos = [] ∧ newTodoStorage.NextID = 1) ∧
    (r.file = none →
      repoLoad r = ({ r with storage := newTodoStorage }, .ok ())) ∧
    (r.file = some .empty →
      repoLoad r = ({ r with storage := newTodoStorage }, .ok ())) ∧
    (∀ j s, r.file = some (.json j) → unmarshalStorage j = some s →
      repoLoad r = ({ r with storage := s }, .ok ())) ∧
    (∀ j, r.file = some (.json j) → unmarshalStorage j = none →
      repoLoad r = (r, .error "failed to unmarshal JSON")) ∧
    (∀ g, r.file = some (.garbage g) →
      repoLoad r = (r, .error "failed to unmarshal JSON")) := by
  refine ⟨⟨rfl, rfl⟩, ?_, ?_, ?_, ?_, ?_⟩
  · intro h
    unfold repoLoad
    rw [h]
  · intro h
    unfold repoLoad
    rw [h]
  · intro j s hj hs
    simp [repoLoad, hj, hs]
  · intro j hj hs
    simp [repoLoad, hj, hs]
  · intro g hg
    unfold repoLoad
    rw [hg]

/-- The sample repository pointed at an unparsable backing file. -/
def garbageRepo : RepoState :=
  { storage := sampleRepo.storage, file := some (.garbage "oops") }

/-- C8 witness: a missing file and a garbage file, concretely. -/
theorem claim_C8_witness :
    repoLoad emptyRepo = ({ emptyRepo with storage := newTodoStorage }, .ok ()) ∧
    repoLoad garbageRepo = (garbageRepo, .error "failed to unmarshal JSON") :=
  ⟨(claim_C8_load_cases emptyRepo).2.1 rfl,
   (claim_C8_load_cases garbageRepo).2.2.2.2.2 "oops" rfl⟩

/-- C10: the orchestration layer applies the length limits to the raw,
untrimmed input before trimming: any title longer than 200 characters
(even one that would be non-empty and short enough after trimming) and
any description longer than 1000 characters make `CreateTodo` and
`UpdateTodo` (on a positive id) return the corresponding validation
error, leaving the repository state untouched. -/
theorem claim_C10_raw_length_checked (r : RepoState) (title descr : String)
    (id : Int) (completed : Bool) (now : Int) (wOk : Bool) :
    (trimSpace title ≠ "" → title.length > 200 →
      serviceCreateTodo r title descr now wOk =
        (r, .error "validation failed: title must be 200 characters or less")) ∧
    (trimSpace title ≠ "" → title.length ≤ 200 → descr.length > 1000 →
      serviceCreateTodo r title descr now wOk =
        (r, .error "validation failed: description must be 1000 characters or less")) ∧
    (0 < id → trimSpace title ≠ "" → title.length > 200 →
      serviceUpdateTodo r id title descr completed now wOk =
        (r, .error "validation failed: title must be 200 characters or less")) ∧
    (0 < id → trimSpace title ≠ "" → title.length ≤ 200 → descr.length > 1000 →
      serviceUpdateTodo r id title descr completed now wOk =
        (r, .error "validation failed: description must be 1000 characters or less")) := by
  refine ⟨?_, ?_, ?_, ?_⟩
  · intro h1 h2
    simp [serviceCreateTodo, validateTodoInput, h1, h2]
  · intro h1 h2 h3
    have h2n : ¬ (200 < title.length) := by omega
    simp [serviceCreateTodo, validateTodoInput, h1, h2n, h3]
  · intro h0 h1 h2
    have hid : ¬ id ≤ 0 := by omega
    simp [serviceUpdateTodo, validateTodoInput, hid, h1, h2]
  · intro h0 h1 h2 h3
    have hid : ¬ id ≤ 0 := by omega
    have h2n : ¬ (200 < title.length) := by omega
    simp [serviceUpdateTodo, validateTodoInput, hid, h1, h2n, h3]

/-- A title of 202 characters whose trimmed form has 200: raw length
violates the limit although the trimmed form would not. -/
def witTitle : String := String.mk (' ' :: (List.replicate 200 'x' ++ [' ']))

/-- A description of 1001 characters. -/
def witDescr : String := String.mk (List.replicate 1001 'y')

set_option maxRecDepth 100000 in
/-- C10 witness: the over-long raw title (trimmed form fine) and the
over-long description, at the service layer, on the empty repository. -/
theorem claim_C10_witness :
    serviceCreateTodo emptyRepo witTitle "" 0 true =
      (emptyRepo, .error "validation failed: title must be 200 characters or less") ∧
    serviceUpdateTodo emptyRepo 1 "ok" witDescr false 0 true =
      (emptyRepo, .error "validation failed: description must be 1000 characters or less") :=
  ⟨(claim_C10_raw_length_checked emptyRepo witTitle "" 1 false 0 true).1
      (by decide) (by decide),
   (claim_C10_raw_length_checked emptyRepo "ok" witDescr 1 false 0 true).2.2.2
      (by decide) (by decide) (by decide) (by decide)⟩

end GoTodo
